import Mathlib

/-!
Verification development for the agentic-payments repository.

The TypeScript sources under `src/` are shallowly embedded: USD amounts
(JavaScript numbers holding dollar values) are modelled as `ℚ`, millisecond
timestamps (`Date.now()`) as `ℤ` passed explicitly as a `now` parameter, and
the `localStorage`-backed session store and the tokenizer's in-memory `Map`
as association lists.  Methods that mutate their arguments are embedded as
functions returning the updated value.
-/

namespace AgenticPayments

/-- Milliseconds in 24 hours, the `24 * 60 * 60 * 1000` constant of the source. -/
def msPerDay : ℤ := 24 * 60 * 60 * 1000

/-- Embeds `SessionKeyConfig` from src/session/SessionStorage.ts. -/
structure SessionKeyConfig where
  dailyLimitUSD : ℚ
  perTransactionLimitUSD : ℚ
  expiryTimestamp : ℤ
  allowedChains : List ℤ
deriving DecidableEq

/-- The `metadata` record of a `StoredSession` from src/session/SessionStorage.ts. -/
structure SessionMetadata where
  createdAt : ℤ
  lastUsedAt : ℤ
  totalSpentUSD : ℚ
  dailySpentUSD : ℚ
  dailyResetAt : ℤ
  transactionCount : ℕ
deriving DecidableEq

/-- Embeds `StoredSession` from src/session/SessionStorage.ts. -/
structure StoredSession where
  keyHash : String
  encryptedPrivateKey : String
  publicKey : String
  config : SessionKeyConfig
  metadata : SessionMetadata
  masterKeyHash : String
deriving DecidableEq

/-- Embeds `LimitCheckResult` from src/session/SpendingTracker.ts. -/
structure LimitCheckResult where
  allowed : Bool
  reason : Option String
  remainingDailyLimitUSD : ℚ
deriving DecidableEq

/-- Embeds `SpendingTracker.checkLimits` from src/session/SpendingTracker.ts lines 10-42.
The method destructures `dailySpentUSD` and `dailyResetAt` into local variables,
applies the 24h rollover to those locals only, and then runs the per-transaction
and daily checks.  `Date.now()` is the `now` parameter. -/
def SpendingTracker.checkLimits (session : StoredSession) (amountUSD : ℚ) (now : ℤ) :
    LimitCheckResult :=
  let dailySpentUSD := session.metadata.dailySpentUSD
  let dailyResetAt := session.metadata.dailyResetAt
  let dailySpentUSD := if now > dailyResetAt then 0 else dailySpentUSD
  if amountUSD > session.config.perTransactionLimitUSD then
    { allowed := false
      reason := some ("Transaction amount $" ++ toString amountUSD ++
        " exceeds per-transaction limit $" ++ toString session.config.perTransactionLimitUSD)
      remainingDailyLimitUSD := session.config.dailyLimitUSD - dailySpentUSD }
  else if dailySpentUSD + amountUSD > session.config.dailyLimitUSD then
    { allowed := false
      reason := some ("Transaction amount $" ++ toString amountUSD ++
        " exceeds remaining daily limit $" ++
        toString (session.config.dailyLimitUSD - dailySpentUSD))
      remainingDailyLimitUSD := session.config.dailyLimitUSD - dailySpentUSD }
  else
    { allowed := true
      reason := none
      remainingDailyLimitUSD := session.config.dailyLimitUSD - (dailySpentUSD + amountUSD) }

/-- State-passing form of `SpendingTracker.checkLimits`.  The source method
(src/session/SpendingTracker.ts lines 10-42) copies `dailySpentUSD` and
`dailyResetAt` out of `session.metadata` by destructuring and never assigns to
any field of `session`, so the session component of the result is the input
session unchanged. -/
def SpendingTracker.checkLimitsS (session : StoredSession) (amountUSD : ℚ) (now : ℤ) :
    LimitCheckResult × StoredSession :=
  (SpendingTracker.checkLimits session amountUSD now, session)

/-- Embeds `SpendingTracker.recordSpending` from src/session/SpendingTracker.ts lines 44-57,
returning the mutated session. -/
def SpendingTracker.recordSpending (session : StoredSession) (amountUSD : ℚ) (now : ℤ) :
    StoredSession :=
  let m := session.metadata
  let m := if now > m.dailyResetAt then
      { m with dailySpentUSD := 0, dailyResetAt := now + msPerDay } else m
  { session with metadata :=
    { m with
      dailySpentUSD := m.dailySpentUSD + amountUSD
      totalSpentUSD := m.totalSpentUSD + amountUSD
      lastUsedAt := now
      transactionCount := m.transactionCount + 1 } }

/-- Embeds `SessionKeyManager.isSessionValid` from src/session/SessionKeyManager.ts
lines 162-171: only the expiry timestamp is consulted. -/
def SessionKeyManager.isSessionValid (session : StoredSession) (now : ℤ) : Bool :=
  if now ≥ session.config.expiryTimestamp then false else true

/-- Embeds `SessionKeyManager.checkLimits` from src/session/SessionKeyManager.ts
lines 124-135. -/
def SessionKeyManager.checkLimits (session : StoredSession) (amountUSD : ℚ) (now : ℤ) :
    LimitCheckResult :=
  if !(SessionKeyManager.isSessionValid session now) then
    { allowed := false
      reason := some "Session has expired"
      remainingDailyLimitUSD := 0 }
  else
    SpendingTracker.checkLimits session amountUSD now

/-- The `localStorage`-backed store of src/session/SessionStorage.ts, as an
association list from `keyHash` to session. -/
abbrev SessionStore := List (String × StoredSession)

/-- Embeds `SessionStorage.saveSession`: `localStorage.setItem` overwrites the entry
for the session's key hash. -/
def SessionStorage.saveSession (store : SessionStore) (session : StoredSession) :
    SessionStore :=
  (session.keyHash, session) :: store.filter (fun p => p.1 != session.keyHash)

/-- Embeds `SessionStorage.getSession`: `localStorage.getItem` for the key hash. -/
def SessionStorage.getSession (store : SessionStore) (keyHash : String) :
    Option StoredSession :=
  (store.find? (fun p => p.1 == keyHash)).map (fun p => p.2)

/-- Embeds `SessionStorage.removeSession`: `localStorage.removeItem` for the key hash. -/
def SessionStorage.removeSession (store : SessionStore) (keyHash : String) :
    SessionStore :=
  store.filter (fun p => p.1 != keyHash)

/-- Embeds `SessionKeyManager.revokeSession` from src/session/SessionKeyManager.ts
lines 155-157: the body is exactly `await this.storage.removeSession(keyHash)`;
no other component is invoked. -/
def SessionKeyManager.revokeSession (store : SessionStore) (keyHash : String) :
    SessionStore :=
  SessionStorage.removeSession store keyHash

/-- Embeds `SessionKeyManager.recordSpending` from src/session/SessionKeyManager.ts
lines 143-147: tracker update, `lastUsedAt` refresh, then persistence. -/
def SessionKeyManager.recordSpending (store : SessionStore) (session : StoredSession)
    (amountUSD : ℚ) (now : ℤ) : StoredSession × SessionStore :=
  let session := SpendingTracker.recordSpending session amountUSD now
  let session := { session with metadata := { session.metadata with lastUsedAt := now } }
  (session, SessionStorage.saveSession store session)

/-- Embeds `AgentPaymentErrorCode` from src/types/errors.ts (the codes used here). -/
inductive AgentPaymentErrorCode where
  | SESSION_EXPIRED
  | SESSION_INVALID
  | LIMIT_EXCEEDED
  | PAYMENT_FAILED
  | X402_PARSE_ERROR
deriving DecidableEq

/-- Embeds `AgentPaymentError` from src/types/errors.ts. -/
structure AgentPaymentError where
  code : AgentPaymentErrorCode
  message : String
  remediation : String
  retryable : Bool
deriving DecidableEq

/-- Embeds `SessionKeyManager.validateConfig` from src/session/SessionKeyManager.ts
lines 255-311: the first failing check throws; the thrown error is modelled as
the `some` result. -/
def SessionKeyManager.validateConfig (config : SessionKeyConfig) (now : ℤ) :
    Option AgentPaymentError :=
  if config.dailyLimitUSD ≤ 0 then
    some { code := AgentPaymentErrorCode.SESSION_INVALID
           message := "Daily limit must be greater than 0"
           remediation := "Specify a positive daily spending limit in USD."
           retryable := false }
  else if config.perTransactionLimitUSD ≤ 0 then
    some { code := AgentPaymentErrorCode.SESSION_INVALID
           message := "Per-transaction limit must be greater than 0"
           remediation := "Specify a positive per-transaction limit in USD."
           retryable := false }
  else if config.perTransactionLimitUSD > config.dailyLimitUSD then
    some { code := AgentPaymentErrorCode.SESSION_INVALID
           message := "Per-transaction limit cannot exceed daily limit"
           remediation := "Set per-transaction limit less than or equal to daily limit."
           retryable := false }
  else if config.expiryTimestamp ≤ now then
    some { code := AgentPaymentErrorCode.SESSION_INVALID
           message := "Session expiry must be in the future"
           remediation := "Specify an expiry timestamp in the future."
           retryable := false }
  else if config.expiryTimestamp > now + msPerDay then
    some { code := AgentPaymentErrorCode.SESSION_INVALID
           message := "Session duration cannot exceed 24 hours"
           remediation := "Set expiry to within 24 hours from now."
           retryable := false }
  else if config.allowedChains.isEmpty then
    some { code := AgentPaymentErrorCode.SESSION_INVALID
           message := "At least one allowed chain must be specified"
           remediation := "Provide an array of Wormhole chain IDs."
           retryable := false }
  else
    none

/-- Embeds `SessionKeyManager.createSession` from src/session/SessionKeyManager.ts
lines 55-101.  The secp256k1 keypair generation, key-hash computation and
AES-GCM encryption are external CSPRNG/WebCrypto collaborators; their outputs
(`keyHash`, `publicKey`, `encryptedPrivateKey`) are inputs here.  Validation
throws before anything is generated or persisted; on success exactly one
`saveSession` runs. -/
def SessionKeyManager.createSession (store : SessionStore) (masterKeyHash : String)
    (config : SessionKeyConfig) (keyHash publicKey encryptedPrivateKey : String)
    (now : ℤ) : Except AgentPaymentError StoredSession × SessionStore :=
  match SessionKeyManager.validateConfig config now with
  | some e => (Except.error e, store)
  | none =>
    let session : StoredSession := {
      keyHash := keyHash
      encryptedPrivateKey := encryptedPrivateKey
      publicKey := publicKey
      config := config
      metadata := {
        createdAt := now
        lastUsedAt := now
        totalSpentUSD := 0
        dailySpentUSD := 0
        dailyResetAt := now + msPerDay
        transactionCount := 0 }
      masterKeyHash := masterKeyHash }
    (Except.ok session, SessionStorage.saveSession store session)

/-- A cache entry of the tokenizer: `{ session, expiresAt }` from
src/ucp/PaymentTokenizer.ts. -/
structure CachedToken where
  session : StoredSession
  expiresAt : ℤ
deriving DecidableEq

/-- The tokenizer's in-memory `Map<string, {session, expiresAt}>`. -/
abbrev TokenCache := List (String × CachedToken)

/-- Embeds `TokenValidationResult` from src/ucp/PaymentTokenizer.ts. -/
structure TokenValidationResult where
  valid : Bool
  reason : Option String
  session : Option StoredSession
deriving DecidableEq

/-- The fields of a structurally decoded token that `validate` inspects on a
cache miss (src/ucp/PaymentTokenizer.ts lines 74-84). -/
structure DecodedToken where
  type : String
  expiresAt : ℤ
deriving DecidableEq

/-- Embeds `PaymentToken` from src/ucp/PaymentTokenizer.ts. -/
structure PaymentToken where
  token : String
  keyHash : String
  expiresAt : ℤ
  dailyLimitUSD : ℚ
  perTransactionLimitUSD : ℚ
deriving DecidableEq

/-- The tokenizer's default 15-minute TTL. -/
def PaymentTokenizer.TOKEN_TTL_MS : ℤ := 15 * 60 * 1000

/-- Embeds `PaymentTokenizer.tokenize` from src/ucp/PaymentTokenizer.ts lines 35-64.
The base64url JSON encoding and the fresh 16-byte nonce are external; the
resulting token string is the `tokenString` input. -/
def PaymentTokenizer.tokenize (cache : TokenCache) (session : StoredSession)
    (tokenString : String) (now : ℤ) (customTtlMs : Option ℤ) :
    PaymentToken × TokenCache :=
  let ttl := customTtlMs.getD PaymentTokenizer.TOKEN_TTL_MS
  let expiresAt := min (now + ttl) session.config.expiryTimestamp
  ({ token := tokenString
     keyHash := session.keyHash
     expiresAt := expiresAt
     dailyLimitUSD := session.config.dailyLimitUSD
     perTransactionLimitUSD := session.config.perTransactionLimitUSD },
   (tokenString, { session := session, expiresAt := expiresAt }) ::
     cache.filter (fun p => p.1 != tokenString))

/-- Embeds `PaymentTokenizer.validate` from src/ucp/PaymentTokenizer.ts lines 69-102,
returning the result together with the updated cache (expired entries are
deleted).  The base64url JSON decode on a cache miss is the external `decode`
collaborator (`none` models a JSON.parse exception). -/
def PaymentTokenizer.validate (cache : TokenCache)
    (decode : String → Option DecodedToken) (token : String) (now : ℤ) :
    TokenValidationResult × TokenCache :=
  match (cache.find? (fun p => p.1 == token)).map (fun p => p.2) with
  | none =>
    match decode token with
    | some decoded =>
      if decoded.type != "VERIDEX_SESSION_TOKEN" then
        ({ valid := false, reason := some "Invalid token type", session := none }, cache)
      else if decoded.expiresAt < now then
        ({ valid := false, reason := some "Token expired", session := none }, cache)
      else
        ({ valid := false
           reason := some "Token not found in cache - may be stale"
           session := none }, cache)
    | none => ({ valid := false, reason := some "Malformed token", session := none }, cache)
  | some cached =>
    if cached.expiresAt < now then
      ({ valid := false, reason := some "Token expired", session := none },
       cache.filter (fun p => p.1 != token))
    else if cached.session.config.expiryTimestamp < now then
      ({ valid := false, reason := some "Underlying session expired", session := none },
       cache.filter (fun p => p.1 != token))
    else
      ({ valid := true, reason := none, session := some cached.session }, cache)

/-- Embeds `PaymentTokenizer.revokeAllForSession` from src/ucp/PaymentTokenizer.ts
lines 130-139: removes every cache entry whose session has the key hash and
returns the count removed. -/
def PaymentTokenizer.revokeAllForSession (cache : TokenCache) (keyHash : String) :
    ℕ × TokenCache :=
  ((cache.filter (fun p => p.2.session.keyHash == keyHash)).length,
   cache.filter (fun p => p.2.session.keyHash != keyHash))

/-- Does the list start with the pattern?  Executable model of a JavaScript
string prefix test, used to build the substring test below. -/
def listStartsWith : List Char → List Char → Bool
  | _, [] => true
  | [], _ :: _ => false
  | a :: as, b :: bs => a == b && listStartsWith as bs

/-- Does the pattern occur as a contiguous substring of the list?  Executable
model of JavaScript `String.prototype.includes`. -/
def listHasSub : List Char → List Char → Bool
  | [], pat => listStartsWith [] pat
  | c :: rest, pat => listStartsWith (c :: rest) pat || listHasSub rest pat

/-- JavaScript `s.includes(pat)`. -/
def strIncludes (s pat : String) : Bool :=
  listHasSub s.data pat.data

/-- JavaScript `s.toUpperCase()` on the ASCII strings used here. -/
def strToUpper (s : String) : String :=
  ⟨s.data.map Char.toUpper⟩

/-- JavaScript `s.toLowerCase()` on the ASCII strings used here. -/
def strToLower (s : String) : String :=
  ⟨s.data.map Char.toLower⟩

/-- Numeric value of a digit list (most significant first). -/
def digitsToNat (l : List Char) : ℕ :=
  l.foldl (fun acc c => acc * 10 + (c.toNat - 48)) 0

/-- Are all characters decimal digits? -/
def listAllDigits (l : List Char) : Bool :=
  l.all Char.isDigit

/-- JavaScript `BigInt(s)` on the integer numerals appearing as x402 amounts:
a nonempty all-digit string parses to its value; any other string throws,
modelled as `none`.  (Signed, padded or empty inputs are outside the amount
grammar modelled here.) -/
def parseBigInt (s : String) : Option ℤ :=
  if s.data.isEmpty || !listAllDigits s.data then none
  else some (digitsToNat s.data)

/-- Does the character occur in the list?  Executable model of JavaScript
`s.includes('.')` on a single character. -/
def listHasChar : List Char → Char → Bool
  | [], _ => false
  | c :: rest, d => c == d || listHasChar rest d

/-- Split a character list at the first dot, if any. -/
def splitAtDot : List Char → List Char × Option (List Char)
  | [] => ([], none)
  | c :: rest =>
    if c == '.' then ([], some rest)
    else
      let r := splitAtDot rest
      (c :: r.1, r.2)

/-- Models `ethers.parseUnits(s, decimals)` on the decimal numerals used as x402
amounts: digits, optionally followed by a dot and at most `decimals` fraction
digits, scale to an integer in the token's smallest unit; anything else throws,
modelled as `none`. -/
def parseUnits (s : String) (decimals : ℕ) : Option ℤ :=
  let p := splitAtDot s.data
  match p.2 with
  | none =>
    if !p.1.isEmpty && listAllDigits p.1 then
      some ((digitsToNat p.1 : ℤ) * 10 ^ decimals)
    else none
  | some frac =>
    if !p.1.isEmpty && listAllDigits p.1 && listAllDigits frac &&
        decide (frac.length ≤ decimals) then
      some ((digitsToNat p.1 : ℤ) * 10 ^ decimals +
        (digitsToNat frac : ℤ) * 10 ^ (decimals - frac.length))
    else none

/-- The amount interpretation of `PaymentSigner.sign`,
src/x402/PaymentSigner.ts lines 105-117: a dotted amount is parsed as whole
tokens and scaled; an integer below `1e9` is treated as whole tokens and
scaled; any larger integer is already in the smallest unit.  The `catch`
branch re-runs `ethers.parseUnits` when `BigInt` throws. -/
def PaymentSigner.interpretAmount (amount : String) (decimals : ℕ) : Option ℤ :=
  if listHasChar amount.data '.' then parseUnits amount decimals
  else
    match parseBigInt amount with
    | some n => if n < 10 ^ 9 then parseUnits amount decimals else some n
    | none => parseUnits amount decimals

/-- Embeds `TOKEN_DECIMALS` from src/x402/PaymentSigner.ts lines 33-46. -/
def TOKEN_DECIMALS : List (String × ℕ) :=
  [("USDC", 6), ("USDT", 6), ("DAI", 18), ("WETH", 18),
   ("0x833589fCD6eDb6E08f4c7C32D4f71b54bdA02913", 6),
   ("0xA0b86991c6218b36c1d19D4a2e9Eb0cE3606eB48", 6),
   ("0xaf88d065e77c8cC2239327C5EDb3A432268e5831", 6),
   ("0x0b2C639c533813f4Aa9D7837CAf62653d097Ff85", 6),
   ("0xc01efAaF7C5C61bEbFAeb358E1161b537b8bC0e0", 6),
   ("0xf951eC28187D9E5Ca673Da8FE6757E6f0Be5F77C", 6),
   ("0x7A7754A2089df825801A0a8d95a9801928bFb22A", 6)]

/-- Embeds `TOKEN_SYMBOL_TO_ADDRESS` from src/x402/PaymentSigner.ts lines 49-59. -/
def TOKEN_SYMBOL_TO_ADDRESS : List (String × List (ℤ × String)) :=
  [("USDC",
    [(2, "0xA0b86991c6218b36c1d19D4a2e9Eb0cE3606eB48"),
     (30, "0x833589fCD6eDb6E08f4c7C32D4f71b54bdA02913"),
     (23, "0xaf88d065e77c8cC2239327C5EDb3A432268e5831"),
     (24, "0x0b2C639c533813f4Aa9D7837CAf62653d097Ff85"),
     (25, "0xf951eC28187D9E5Ca673Da8FE6757E6f0Be5F77C"),
     (10002, "0x7A7754A2089df825801A0a8d95a9801928bFb22A"),
     (10025, "0xc01efAaF7C5C61bEbFAeb358E1161b537b8bC0e0")])]

/-- Embeds `DEFAULT_USDC_ADDRESS` from src/x402/PaymentSigner.ts line 62. -/
def DEFAULT_USDC_ADDRESS : String := "0x833589fCD6eDb6E08f4c7C32D4f71b54bdA02913"

/-- EIP-712 domain name/version metadata. -/
structure TokenMeta where
  name : String
  version : String
deriving DecidableEq

/-- Embeds `TOKEN_METADATA` from src/x402/PaymentSigner.ts lines 65-68 (keys exactly
as written in the source, mixed case). -/
def TOKEN_METADATA : List (String × TokenMeta) :=
  [("0xc01efAaF7C5C61bEbFAeb358E1161b537b8bC0e0",
    { name := "Bridged USDC (Stargate)", version := "1" }),
   ("0xf951eC28187D9E5Ca673Da8FE6757E6f0Be5F77C",
    { name := "Bridged USDC (Stargate)", version := "1" })]

/-- Embeds `Payment402Request` from src/types/x402.ts (the fields the signer and the
402 flow read). -/
structure Payment402Request where
  amount : String
  token : String
  recipient : String
  chain : ℤ
  network : String
  scheme : String
  deadline : Option ℤ
deriving DecidableEq

/-- Embeds `ERC3009Authorization` from src/types/x402.ts; `from`/`to` are rendered
`fromAddr`/`toAddr` (Lean keyword). -/
structure ERC3009Authorization where
  fromAddr : String
  toAddr : String
  value : String
  validAfter : ℤ
  validBefore : ℤ
  nonce : String
deriving DecidableEq

/-- The `ethers.TypedDataDomain` built by the signer. -/
structure TypedDataDomain where
  name : String
  version : String
  chainId : ℤ
  verifyingContract : Option String
deriving DecidableEq

/-- Embeds `PaymentSigner.getTokenDecimals` from src/x402/PaymentSigner.ts
lines 237-258: direct table hit, then case-insensitive hit, then default 6. -/
def PaymentSigner.getTokenDecimals (token : String) : ℕ :=
  match (TOKEN_DECIMALS.find? (fun p => p.1 == token)).map (fun p => p.2) with
  | some d => d
  | none =>
    match (TOKEN_DECIMALS.find? (fun p => strToLower p.1 == strToLower token)).map
        (fun p => p.2) with
    | some d => d
    | none => 6

/-- Embeds `PaymentSigner.resolveTokenAddress` from src/x402/PaymentSigner.ts
lines 264-283: a 42-character `0x` string passes through; otherwise the symbol
table is consulted and unknown symbols fall back to Base USDC. -/
def PaymentSigner.resolveTokenAddress (token : String) (wormholeChainId : ℤ) : String :=
  if listStartsWith token.data ['0', 'x'] && token.data.length == 42 then token
  else
    let upperSymbol := strToUpper token
    match TOKEN_SYMBOL_TO_ADDRESS.find? (fun p => p.1 == upperSymbol) with
    | some p =>
      match (p.2.find? (fun q => q.1 == wormholeChainId)).map (fun q => q.2) with
      | some address => address
      | none => DEFAULT_USDC_ADDRESS
    | none => DEFAULT_USDC_ADDRESS

/-- Embeds `PaymentSigner.wormholeToEvmChainId` from src/x402/PaymentSigner.ts
lines 288-304; unknown ids pass through. -/
def PaymentSigner.wormholeToEvmChainId (wormholeChainId : ℤ) : ℤ :=
  let mapping : List (ℤ × ℤ) :=
    [(2, 1), (30, 8453), (23, 42161), (24, 10), (5, 137), (6, 43114), (4, 56),
     (25, 25), (10002, 11155111), (10004, 84532), (10025, 338)]
  ((mapping.find? (fun q => q.1 == wormholeChainId)).map (fun q => q.2)).getD
    wormholeChainId

/-- Abstract model of the external `ethers` secp256k1/EIP-712 primitives:
`addressOf` is `new ethers.Wallet(key).address`, `signTypedData` is
`wallet.signTypedData(domain, types, value)` (the `TransferWithAuthorization`
types are fixed, so the message is the authorization record), and
`verifyTypedData` is `ethers.verifyTypedData`, with `none` modelling a thrown
decoding error. -/
structure EcdsaModel where
  addressOf : String → String
  signTypedData : TypedDataDomain → ERC3009Authorization → String → String
  verifyTypedData : TypedDataDomain → ERC3009Authorization → String → Option String

/-- The domain `PaymentSigner.verifySignature` rebuilds from its arguments
(src/x402/PaymentSigner.ts lines 204-214). -/
def PaymentSigner.verifyDomain (chainId : ℤ) (tokenAddress : Option String) :
    TypedDataDomain :=
  let tokenMetadata : TokenMeta :=
    match tokenAddress with
    | some ta =>
      ((TOKEN_METADATA.find? (fun p => p.1 == strToLower ta)).map (fun p => p.2)).getD
        { name := "x402", version := "1" }
    | none => { name := "x402", version := "1" }
  { name := tokenMetadata.name
    version := tokenMetadata.version
    chainId := chainId
    verifyingContract := tokenAddress }

/-- Result of `PaymentSigner.sign` (src/types/x402.ts `Payment402Response`),
with the authorization it signed; the base64 JSON payload is an external
encoding of the same data. -/
structure Payment402Response where
  signature : String
  nonce : String
  deadline : ℤ
  authorization : ERC3009Authorization
deriving DecidableEq

/-- Embeds `PaymentSigner.sign` from src/x402/PaymentSigner.ts lines 84-185.  The
fresh 32-byte CSPRNG nonce is the `nonce` input and `now` is `Date.now()` in
milliseconds; `none` models the amount parser throwing.  Note the source
builds the wallet directly from `session.encryptedPrivateKey`. -/
def PaymentSigner.sign (M : EcdsaModel) (request : Payment402Request)
    (session : StoredSession) (nonce : String) (now : ℤ) :
    Option Payment402Response :=
  let walletAddress := M.addressOf session.encryptedPrivateKey
  let nowSec := now / 1000
  let deadline := request.deadline.getD (nowSec + 300)
  let tokenAddress := PaymentSigner.resolveTokenAddress request.token request.chain
  let decimals := PaymentSigner.getTokenDecimals request.token
  match PaymentSigner.interpretAmount request.amount decimals with
  | none => none
  | some valueInSmallestUnit =>
    let authorization : ERC3009Authorization := {
      fromAddr := walletAddress
      toAddr := request.recipient
      value := toString valueInSmallestUnit
      validAfter := 0
      validBefore := deadline
      nonce := nonce }
    let tokenMetadata : TokenMeta :=
      ((TOKEN_METADATA.find? (fun p => p.1 == strToLower tokenAddress)).map
        (fun p => p.2)).getD { name := "x402", version := "1" }
    let evmChainId := PaymentSigner.wormholeToEvmChainId request.chain
    let domain : TypedDataDomain := {
      name := tokenMetadata.name
      version := tokenMetadata.version
      chainId := evmChainId
      verifyingContract := some tokenAddress }
    let signature := M.signTypedData domain authorization session.encryptedPrivateKey
    some { signature := signature
           nonce := nonce
           deadline := deadline
           authorization := authorization }

/-- Embeds `PaymentSigner.verifySignature` from src/x402/PaymentSigner.ts
lines 196-232: rebuild the domain, recover the signer, compare lowercased;
any thrown error is caught and yields `false`. -/
def PaymentSigner.verifySignature (M : EcdsaModel) (signature : String)
    (authorization : ERC3009Authorization) (expectedSigner : String)
    (chainId : ℤ) (tokenAddress : Option String) : Bool :=
  match M.verifyTypedData (PaymentSigner.verifyDomain chainId tokenAddress)
      authorization signature with
  | some recoveredAddress => strToLower recoveredAddress == strToLower expectedSigner
  | none => false

/-- JavaScript `parseFloat` on the plain decimal numerals used as x402
amounts (exact for these inputs); other strings give `NaN`, modelled as
`none`. -/
def parseFloatQ (s : String) : Option ℚ :=
  let p := splitAtDot s.data
  match p.2 with
  | none =>
    if !p.1.isEmpty && listAllDigits p.1 then some (digitsToNat p.1 : ℚ) else none
  | some frac =>
    if !p.1.isEmpty && listAllDigits p.1 && listAllDigits frac then
      some ((digitsToNat p.1 : ℚ) + (digitsToNat frac : ℚ) / 10 ^ frac.length)
    else none

/-- The stablecoin symbol list of `X402Client.estimateUSDValue`,
src/x402/X402Client.ts line 301. -/
def X402Client.stablecoinSymbols : List String :=
  ["USDC", "USDT", "DAI", "BUSD", "TUSD"]

/-- Embeds `X402Client.estimateUSDValue` from src/x402/X402Client.ts lines 297-319,
applied to the parsed amount: the token is a stablecoin when its uppercased
form contains one of the symbols; in both the stablecoin and the fallback
branch, amounts above `1_000_000` are divided by `1_000_000` and all others
are used as-is. -/
def X402Client.estimateUSDValueFrom (amount : ℚ) (token : String) : ℚ :=
  let isStablecoin :=
    X402Client.stablecoinSymbols.any (fun s => strIncludes (strToUpper token) s)
  if isStablecoin then
    if amount > 1000000 then amount / 1000000 else amount
  else
    if amount > 1000000 then amount / 1000000 else amount

/-- Embeds `X402Client.estimateUSDValue` including the `parseFloat` of the amount
string. -/
def X402Client.estimateUSDValue (request : Payment402Request) : Option ℚ :=
  (parseFloatQ request.amount).map
    (fun amount => X402Client.estimateUSDValueFrom amount request.token)

/-- The ledger-relevant core of `X402Client.handleX402Flow`,
src/x402/X402Client.ts lines 129-151: estimate the USD value, check limits,
and on `Allow` record the same USD value before the retry.  `amount` is the
`parseFloat` of `request.amount`; the HTTP fetch, parsing and EIP-712 signing
around this core do not touch the ledger.  The error carries the reason and
remaining limit that `AgentPaymentError.fromLimitExceeded` receives. -/
def X402Client.handleX402FlowCore (store : SessionStore) (session : StoredSession)
    (amount : ℚ) (token : String) (now : ℤ) :
    Except (String × ℚ) (StoredSession × SessionStore × ℚ) :=
  let amountUSD := X402Client.estimateUSDValueFrom amount token
  let limitResult := SessionKeyManager.checkLimits session amountUSD now
  if limitResult.allowed then
    let rs := SessionKeyManager.recordSpending store session amountUSD now
    Except.ok (rs.1, rs.2, amountUSD)
  else
    Except.error (limitResult.reason.getD "Transaction exceeds session limits",
      limitResult.remainingDailyLimitUSD)

/-- One call in a `check`/`record` sequence against a session's ledger. -/
inductive LedgerOp where
  | check (amountUSD : ℚ) (now : ℤ)
  | record (amountUSD : ℚ) (now : ℤ)

/-- Run a sequence of tracker calls against a session, threading the session
state through each call. -/
def runOps (session : StoredSession) : List LedgerOp → StoredSession
  | [] => session
  | LedgerOp.check a n :: rest =>
    runOps (SpendingTracker.checkLimitsS session a n).2 rest
  | LedgerOp.record a n :: rest =>
    runOps (SpendingTracker.recordSpending session a n) rest

/-- A sequence is guarded when every `record` is immediately justified by a
`checkLimits` call on the current state, at the same amount and time, that
returned `Allow`. -/
def guardedOps (session : StoredSession) : List LedgerOp → Bool
  | [] => true
  | LedgerOp.check a n :: rest =>
    guardedOps (SpendingTracker.checkLimitsS session a n).2 rest
  | LedgerOp.record a n :: rest =>
    (SpendingTracker.checkLimits session a n).allowed &&
      guardedOps (SpendingTracker.recordSpending session a n) rest

/-- The amounts recorded by a sequence. -/
def recordedAmounts : List LedgerOp → List ℚ
  | [] => []
  | LedgerOp.check _ _ :: rest => recordedAmounts rest
  | LedgerOp.record a _ :: rest => a :: recordedAmounts rest

/-- Predicate: `t` occurs as a contiguous substring of `s`. -/
def strContainsProp (s t : String) : Prop :=
  ∃ x y, s = x ++ t ++ y

/-- The limit-check result carries a reason containing `t`. -/
def reasonContains (r : LimitCheckResult) (t : String) : Prop :=
  ∃ msg, r.reason = some msg ∧ strContainsProp msg t

/-- The case analysis claimed for `checkLimits` on a session whose daily
window has not rolled over. -/
def checkOutcome (session : StoredSession) (amountUSD : ℚ) (now : ℤ) : Prop :=
  let r := SessionKeyManager.checkLimits session amountUSD now
  let cap := session.config.dailyLimitUSD
  let spent := session.metadata.dailySpentUSD
  (amountUSD > session.config.perTransactionLimitUSD →
    r.allowed = false ∧ reasonContains r "per-transaction limit" ∧
      r.remainingDailyLimitUSD = cap - spent)
  ∧ (amountUSD ≤ session.config.perTransactionLimitUSD →
      spent + amountUSD > cap →
      r.allowed = false ∧ reasonContains r "daily limit" ∧
        r.remainingDailyLimitUSD = cap - spent)
  ∧ (amountUSD ≤ session.config.perTransactionLimitUSD →
      spent + amountUSD ≤ cap →
      r.allowed = true ∧ r.remainingDailyLimitUSD = cap - spent - amountUSD)
  ∧ (spent = cap → amountUSD > 0 → r.allowed = false)

/-- A policy configuration violating Invariant 1 in one of the six ways
`validateConfig` rejects. -/
def invalidPolicy (config : SessionKeyConfig) (now : ℤ) : Prop :=
  config.dailyLimitUSD ≤ 0 ∨ config.perTransactionLimitUSD ≤ 0 ∨
  config.perTransactionLimitUSD > config.dailyLimitUSD ∨
  config.expiryTimestamp ≤ now ∨ config.expiryTimestamp > now + msPerDay ∨
  config.allowedChains = []

/-- A session with its daily window advanced: spent zeroed and the reset time
moved to `now + 24h` (the effect the tracker's rollover has when it fires). -/
def advanceWindow (session : StoredSession) (now : ℤ) : StoredSession :=
  { session with metadata :=
    { session.metadata with dailySpentUSD := 0, dailyResetAt := now + msPerDay } }

/-- Sign/verify round-trip behaviour for one `sign` call: verification
succeeds against the session wallet's address with the mapped EVM chain id
and the resolved token address, fails against any other expected signer, and
`verifySignature` returns `false` (rather than raising) whenever signer
recovery fails. -/
def signVerifyOutcome (M : EcdsaModel) (request : Payment402Request)
    (session : StoredSession) (nonce : String) (now : ℤ) : Prop :=
  (∀ resp, PaymentSigner.sign M request session nonce now = some resp →
    PaymentSigner.verifySignature M resp.signature resp.authorization
      (M.addressOf session.encryptedPrivateKey)
      (PaymentSigner.wormholeToEvmChainId request.chain)
      (some (PaymentSigner.resolveTokenAddress request.token request.chain)) = true
    ∧ ∀ other, strToLower other ≠ strToLower (M.addressOf session.encryptedPrivateKey) →
        PaymentSigner.verifySignature M resp.signature resp.authorization other
          (PaymentSigner.wormholeToEvmChainId request.chain)
          (some (PaymentSigner.resolveTokenAddress request.token request.chain)) = false)
  ∧ ∀ signature authorization expectedSigner chainId tokenAddress,
      M.verifyTypedData (PaymentSigner.verifyDomain chainId tokenAddress)
        authorization signature = none →
      PaymentSigner.verifySignature M signature authorization expectedSigner
        chainId tokenAddress = false

/-- A valid test policy: daily cap $100, per-tx cap $25, expiry at t=1000000. -/
def testConfig : SessionKeyConfig :=
  { dailyLimitUSD := 100
    perTransactionLimitUSD := 25
    expiryTimestamp := 1000000
    allowedChains := [30] }

/-- A fresh test session under `testConfig` with nothing spent. -/
def testSession : StoredSession :=
  { keyHash := "k1"
    encryptedPrivateKey := "0xabc"
    publicKey := "0xpub"
    config := testConfig
    metadata := {
      createdAt := 0
      lastUsedAt := 0
      totalSpentUSD := 0
      dailySpentUSD := 0
      dailyResetAt := 500000
      transactionCount := 0 }
    masterKeyHash := "m1" }

/-- A session with $50 of $100 spent and a daily window ending at t=1000. -/
def sessionSpent50 : StoredSession :=
  { keyHash := "k2"
    encryptedPrivateKey := "0xdef"
    publicKey := "0xpub2"
    config := {
      dailyLimitUSD := 100
      perTransactionLimitUSD := 100
      expiryTimestamp := 1000000000
      allowedChains := [30] }
    metadata := {
      createdAt := 0
      lastUsedAt := 0
      totalSpentUSD := 50
      dailySpentUSD := 50
      dailyResetAt := 1000
      transactionCount := 1 }
    masterKeyHash := "m1" }

/-- A session expiring at t=100. -/
def sessionShortExpiry : StoredSession :=
  { keyHash := "k3"
    encryptedPrivateKey := "0xeee"
    publicKey := "0xpub3"
    config := {
      dailyLimitUSD := 100
      perTransactionLimitUSD := 25
      expiryTimestamp := 100
      allowedChains := [30] }
    metadata := {
      createdAt := 0
      lastUsedAt := 0
      totalSpentUSD := 0
      dailySpentUSD := 0
      dailyResetAt := 86400000
      transactionCount := 0 }
    masterKeyHash := "m1" }

/-- A degenerate but lawful instantiation of the external ECDSA primitives,
used to exercise theorems that are parametric in the crypto model. -/
def trivialEcdsa : EcdsaModel :=
  { addressOf := fun k => k
    signTypedData := fun _ _ k => k
    verifyTypedData := fun _ _ signature => some signature }

/-- A parsed 402 challenge for $1 USDC on Base. -/
def testRequest : Payment402Request :=
  { amount := "1000000"
    token := "USDC"
    recipient := "0x1111111111111111111111111111111111111111"
    chain := 30
    network := "base"
    scheme := "exact"
    deadline := none }

/-! ## Theorems -/

theorem strContains_of_mid (x t y : String) : strContainsProp (x ++ t ++ y) t :=
  ⟨x, y, rfl⟩

theorem recordSpending_config (s : StoredSession) (a : ℚ) (n : ℤ) :
    (SpendingTracker.recordSpending s a n).config = s.config := rfl

theorem checkLimits_allowed_bounds (s : StoredSession) (a : ℚ) (n : ℤ)
    (h : (SpendingTracker.checkLimits s a n).allowed = true) :
    a ≤ s.config.perTransactionLimitUSD ∧
    (SpendingTracker.recordSpending s a n).metadata.dailySpentUSD ≤
      s.config.dailyLimitUSD := by
  by_cases hr : n > s.metadata.dailyResetAt
  · by_cases h1 : a > s.config.perTransactionLimitUSD
    · exfalso
      simp [SpendingTracker.checkLimits, hr, h1] at h
    · by_cases h2 : a > s.config.dailyLimitUSD
      · exfalso
        simp [SpendingTracker.checkLimits, hr, h1, h2] at h
      · refine ⟨not_lt.mp h1, ?_⟩
        simp [SpendingTracker.recordSpending, hr]
        exact not_lt.mp h2
  · by_cases h1 : a > s.config.perTransactionLimitUSD
    · exfalso
      simp [SpendingTracker.checkLimits, hr, h1] at h
    · by_cases h2 : s.metadata.dailySpentUSD + a > s.config.dailyLimitUSD
      · exfalso
        simp [SpendingTracker.checkLimits, hr, h1, h2] at h
      · refine ⟨not_lt.mp h1, ?_⟩
        simp [SpendingTracker.recordSpending, hr]
        exact not_lt.mp h2

theorem guarded_runOps_bounds (ops : List LedgerOp) :
    ∀ s : StoredSession, s.metadata.dailySpentUSD ≤ s.config.dailyLimitUSD →
    guardedOps s ops = true →
    (runOps s ops).metadata.dailySpentUSD ≤ (runOps s ops).config.dailyLimitUSD ∧
    ∀ a ∈ recordedAmounts ops, a ≤ s.config.perTransactionLimitUSD := by
  induction ops with
  | nil =>
    intro s h _
    exact ⟨h, by simp [recordedAmounts]⟩
  | cons op rest ih =>
    intro s h hg
    cases op with
    | check a n =>
      simp only [runOps, guardedOps, SpendingTracker.checkLimitsS,
        recordedAmounts] at hg ⊢
      exact ih s h hg
    | record a n =>
      simp only [runOps, guardedOps, Bool.and_eq_true, recordedAmounts] at hg ⊢
      obtain ⟨hall, hrest⟩ := hg
      obtain ⟨hper, hcap⟩ := checkLimits_allowed_bounds s a n hall
      have hcfg := recordSpending_config s a n
      have hmain := ih (SpendingTracker.recordSpending s a n)
        (by rw [hcfg]; exact hcap) hrest
      refine ⟨hmain.1, ?_⟩
      intro b hb
      rcases List.mem_cons.mp hb with hb | hb
      · exact hb ▸ hper
      · have := hmain.2 b hb
        rwa [hcfg] at this

/-- C1: for any session starting with `0 ≤ daily_spent ≤ daily_cap`, any
sequence of `checkLimits`/`recordSpending` calls in which every record is
justified by an `Allow` from `checkLimits` at the same amount and time leaves
`daily_spent ≤ daily_cap`, and every recorded amount is at most the
per-transaction cap. -/
theorem spendingTracker_guarded_sequence_preserves_caps
    (session : StoredSession) (ops : List LedgerOp)
    (_h0 : 0 ≤ session.metadata.dailySpentUSD)
    (h1 : session.metadata.dailySpentUSD ≤ session.config.dailyLimitUSD)
    (hg : guardedOps session ops = true) :
    (runOps session ops).metadata.dailySpentUSD ≤
      (runOps session ops).config.dailyLimitUSD ∧
    ∀ a ∈ recordedAmounts ops, a ≤ session.config.perTransactionLimitUSD :=
  guarded_runOps_bounds ops session h1 hg

theorem spendingTracker_guarded_sequence_preserves_caps_witness :
    (0 : ℚ) ≤ testSession.metadata.dailySpentUSD ∧
    testSession.metadata.dailySpentUSD ≤ testSession.config.dailyLimitUSD ∧
    guardedOps testSession
      [LedgerOp.check 20 0, LedgerOp.record 20 0, LedgerOp.check 30 0] = true ∧
    ((runOps testSession
        [LedgerOp.check 20 0, LedgerOp.record 20 0, LedgerOp.check 30 0]
        ).metadata.dailySpentUSD ≤
      (runOps testSession
        [LedgerOp.check 20 0, LedgerOp.record 20 0, LedgerOp.check 30 0]
        ).config.dailyLimitUSD ∧
      ∀ a ∈ recordedAmounts
        [LedgerOp.check 20 0, LedgerOp.record 20 0, LedgerOp.check 30 0],
        a ≤ testSession.config.perTransactionLimitUSD) := by
  have hg : guardedOps testSession
      [LedgerOp.check 20 0, LedgerOp.record 20 0, LedgerOp.check 30 0] = true := by
    norm_num [guardedOps, SpendingTracker.checkLimits, SpendingTracker.checkLimitsS,
      SpendingTracker.recordSpending, testSession, testConfig]
  refine ⟨by norm_num [testSession], by norm_num [testSession, testConfig], hg, ?_⟩
  exact spendingTracker_guarded_sequence_preserves_caps testSession _
    (by norm_num [testSession]) (by norm_num [testSession, testConfig]) hg

/-- C10: `checkLimits` is a pure read — any number of calls leaves the session
record unchanged, the rolling-window reset being applied only to local copies —
while `recordSpending` does persist a rollover: when `now` is past the window
end it stores the zeroed-and-incremented spend and the advanced reset time. -/
theorem checkLimits_pure_frame (session : StoredSession)
    (calls : List (ℚ × ℤ)) (a : ℚ) (now : ℤ)
    (h : now > session.metadata.dailyResetAt) :
    calls.foldl (fun st c => (SpendingTracker.checkLimitsS st c.1 c.2).2) session
      = session ∧
    (SpendingTracker.recordSpending session a now).metadata.dailyResetAt
      = now + msPerDay ∧
    (SpendingTracker.recordSpending session a now).metadata.dailySpentUSD = a := by
  refine ⟨?_, ?_, ?_⟩
  · induction calls with
    | nil => rfl
    | cons c rest ih =>
      simp only [List.foldl_cons]
      exact ih
  · simp [SpendingTracker.recordSpending, h]
  · simp [SpendingTracker.recordSpending, h]

theorem checkLimits_pure_frame_witness :
    (1500 : ℤ) > sessionSpent50.metadata.dailyResetAt ∧
    ([((10 : ℚ), (1500 : ℤ)), ((200 : ℚ), (1500 : ℤ))].foldl
        (fun st c => (SpendingTracker.checkLimitsS st c.1 c.2).2) sessionSpent50
      = sessionSpent50 ∧
    (SpendingTracker.recordSpending sessionSpent50 10 1500).metadata.dailyResetAt
      = 1500 + msPerDay ∧
    (SpendingTracker.recordSpending sessionSpent50 10 1500).metadata.dailySpentUSD
      = 10) :=
  ⟨by norm_num [sessionSpent50],
   checkLimits_pure_frame sessionSpent50 [(10, 1500), (200, 1500)] 10 1500
     (by norm_num [sessionSpent50])⟩

theorem sessionManager_checkLimits_valid (session : StoredSession)
    (amountUSD : ℚ) (now : ℤ) (hexp : now < session.config.expiryTimestamp) :
    SessionKeyManager.checkLimits session amountUSD now
      = SpendingTracker.checkLimits session amountUSD now := by
  have hvalid : SessionKeyManager.isSessionValid session now = true := by
    simp [SessionKeyManager.isSessionValid, not_le.mpr hexp]
  simp [SessionKeyManager.checkLimits, hvalid]

/-- C2: for a non-expired session whose daily window has not rolled over,
`checkLimits` denies with a "per-transaction limit" reason and remaining
`cap - spent` when the amount exceeds the per-transaction cap; otherwise
denies with a "daily limit" reason and remaining `cap - spent` when
`spent + amount` exceeds the daily cap (so at `spent = cap` any positive
amount is denied); otherwise allows with remaining `cap - spent - amount`. -/
theorem sessionManager_checkLimits_cases (session : StoredSession)
    (amountUSD : ℚ) (now : ℤ)
    (hexp : now < session.config.expiryTimestamp)
    (hwin : now < session.metadata.dailyResetAt) :
    checkOutcome session amountUSD now := by
  have hnr : ¬ (now > session.metadata.dailyResetAt) := not_lt.mpr hwin.le
  rw [checkOutcome]
  rw [sessionManager_checkLimits_valid session amountUSD now hexp]
  refine ⟨?_, ?_, ?_, ?_⟩
  · intro h1
    simp only [SpendingTracker.checkLimits, if_neg hnr, if_pos h1]
    refine ⟨trivial, ?_, trivial⟩
    refine ⟨_, rfl, ?_⟩
    have hsplit : (" exceeds per-transaction limit $" : String)
        = " exceeds " ++ "per-transaction limit" ++ " $" := rfl
    have heq : "Transaction amount $" ++ toString amountUSD ++
        " exceeds per-transaction limit $" ++
        toString session.config.perTransactionLimitUSD
        = ("Transaction amount $" ++ toString amountUSD ++ " exceeds ") ++
          "per-transaction limit" ++
          (" $" ++ toString session.config.perTransactionLimitUSD) := by
      rw [hsplit]
      simp only [String.append_assoc]
    rw [heq]
    exact strContains_of_mid _ _ _
  · intro h1 h2
    have h1n : ¬ (amountUSD > session.config.perTransactionLimitUSD) :=
      not_lt.mpr h1
    simp only [SpendingTracker.checkLimits, if_neg hnr, if_neg h1n, if_pos h2]
    refine ⟨trivial, ?_, trivial⟩
    refine ⟨_, rfl, ?_⟩
    have hsplit : (" exceeds remaining daily limit $" : String)
        = " exceeds remaining " ++ "daily limit" ++ " $" := rfl
    have heq : "Transaction amount $" ++ toString amountUSD ++
        " exceeds remaining daily limit $" ++
        toString (session.config.dailyLimitUSD - session.metadata.dailySpentUSD)
        = ("Transaction amount $" ++ toString amountUSD ++ " exceeds remaining ") ++
          "daily limit" ++
          (" $" ++ toString
            (session.config.dailyLimitUSD - session.metadata.dailySpentUSD)) := by
      rw [hsplit]
      simp only [String.append_assoc]
    rw [heq]
    exact strContains_of_mid _ _ _
  · intro h1 h2
    have h1n : ¬ (amountUSD > session.config.perTransactionLimitUSD) :=
      not_lt.mpr h1
    have h2n : ¬ (session.metadata.dailySpentUSD + amountUSD
        > session.config.dailyLimitUSD) := not_lt.mpr h2
    simp only [SpendingTracker.checkLimits, if_neg hnr, if_neg h1n, if_neg h2n]
    exact ⟨trivial, by ring⟩
  · intro hfull hpos
    by_cases h1 : amountUSD > session.config.perTransactionLimitUSD
    · simp only [SpendingTracker.checkLimits, if_neg hnr, if_pos h1]
    · have h2 : session.metadata.dailySpentUSD + amountUSD
          > session.config.dailyLimitUSD := by
        rw [hfull]
        linarith
      simp only [SpendingTracker.checkLimits, if_neg hnr, if_neg h1, if_pos h2]

theorem sessionManager_checkLimits_cases_witness :
    ((0 : ℤ) < testSession.config.expiryTimestamp ∧
      (0 : ℤ) < testSession.metadata.dailyResetAt) ∧
    checkOutcome testSession 30 0 :=
  ⟨⟨by norm_num [testSession, testConfig], by norm_num [testSession]⟩,
   sessionManager_checkLimits_cases testSession 30 0
     (by norm_num [testSession, testConfig]) (by norm_num [testSession])⟩

/-- C4 counterexample: at `now = daily_reset_at` exactly the tracker does NOT
advance the window (the source tests `now > dailyResetAt`, strictly).  With
$50 spent and the window ending at t=1000, a $60 check at t=1000 is denied,
whereas computing with the ledger zeroed and the window advanced — what the
claim requires for `now ≥ daily_reset_at` — would allow it; likewise
`recordSpending` at t=1000 keeps the old window and adds to the old spend. -/
theorem rollover_boundary_counterexample :
    (SpendingTracker.checkLimits sessionSpent50 60 1000).allowed = false ∧
    (SpendingTracker.checkLimits (advanceWindow sessionSpent50 1000) 60 1000).allowed
      = true ∧
    (SpendingTracker.recordSpending sessionSpent50 10 1000).metadata.dailyResetAt
      = 1000 ∧
    (SpendingTracker.recordSpending sessionSpent50 10 1000).metadata.dailySpentUSD
      = 60 := by
  refine ⟨?_, ?_, ?_, ?_⟩ <;>
    norm_num [SpendingTracker.checkLimits, SpendingTracker.recordSpending,
      advanceWindow, sessionSpent50, msPerDay]

/-- C4 amended: the rollover fires only for `now` strictly past
`daily_reset_at`.  Whenever `now > daily_reset_at`, both `checkLimits` and
`recordSpending` behave exactly as on the session with `daily_spent` zeroed
and the window advanced to `now + 24h`; at `now = daily_reset_at` exactly the
previous window is still in effect. -/
theorem rollover_strict_amended (session : StoredSession) (a b : ℚ) (now : ℤ)
    (h : now > session.metadata.dailyResetAt) :
    SpendingTracker.checkLimits session a now
      = SpendingTracker.checkLimits (advanceWindow session now) a now ∧
    SpendingTracker.recordSpending session b now
      = SpendingTracker.recordSpending (advanceWindow session now) b now ∧
    (advanceWindow session now).metadata.dailySpentUSD = 0 ∧
    (advanceWindow session now).metadata.dailyResetAt = now + msPerDay := by
  have hno : ¬ (now > now + msPerDay) := by
    simp only [msPerDay]
    omega
  refine ⟨?_, ?_, rfl, rfl⟩
  · simp [SpendingTracker.checkLimits, advanceWindow, h, hno]
  · simp [SpendingTracker.recordSpending, advanceWindow, h, hno]

theorem rollover_strict_amended_witness :
    (2000 : ℤ) > sessionSpent50.metadata.dailyResetAt ∧
    (SpendingTracker.checkLimits sessionSpent50 60 2000
        = SpendingTracker.checkLimits (advanceWindow sessionSpent50 2000) 60 2000 ∧
      SpendingTracker.recordSpending sessionSpent50 10 2000
        = SpendingTracker.recordSpending (advanceWindow sessionSpent50 2000) 10 2000 ∧
      (advanceWindow sessionSpent50 2000).metadata.dailySpentUSD = 0 ∧
      (advanceWindow sessionSpent50 2000).metadata.dailyResetAt = 2000 + msPerDay) :=
  ⟨by norm_num [sessionSpent50],
   rollover_strict_amended sessionSpent50 60 10 2000 (by norm_num [sessionSpent50])⟩

/-- C5 counterexample: `isSessionValid` consults only the expiry timestamp,
not the store — with an empty store (so the session is certainly not present)
and `now` before expiry, it still returns `true`, contradicting the claimed
"AND the session is present in the store". -/
theorem isValid_ignores_store_counterexample :
    SessionKeyManager.isSessionValid sessionShortExpiry 0 = true ∧
    SessionStorage.getSession ([] : SessionStore) sessionShortExpiry.keyHash
      = none := by
  constructor
  · norm_num [SessionKeyManager.isSessionValid, sessionShortExpiry]
  · rfl

/-- C5 amended: `is_valid(session, now)` is true iff `now < expires_at` (store
presence is not consulted); and for every `now ≥ expires_at`, `checkLimits`
denies with a reason containing "expired" and remaining 0, regardless of the
ledger — so at `now = expires_at` exactly the session is invalid. -/
theorem isSessionValid_amended (session : StoredSession) (a : ℚ) (now : ℤ) :
    (SessionKeyManager.isSessionValid session now = true
      ↔ now < session.config.expiryTimestamp) ∧
    (now ≥ session.config.expiryTimestamp →
      (SessionKeyManager.checkLimits session a now).allowed = false ∧
      reasonContains (SessionKeyManager.checkLimits session a now) "expired" ∧
      (SessionKeyManager.checkLimits session a now).remainingDailyLimitUSD = 0) := by
  constructor
  · constructor
    · intro h
      by_contra hc
      simp [SessionKeyManager.isSessionValid, not_lt.mp hc] at h
    · intro h
      simp [SessionKeyManager.isSessionValid, not_le.mpr h]
  · intro h
    have hinv : SessionKeyManager.isSessionValid session now = false := by
      simp [SessionKeyManager.isSessionValid, h]
    simp only [SessionKeyManager.checkLimits, hinv, Bool.not_false, if_true]
    exact ⟨trivial, ⟨"Session has expired", rfl, ⟨"Session has ", "", by decide⟩⟩,
      trivial⟩

theorem isSessionValid_amended_witness :
    (200 : ℤ) ≥ sessionShortExpiry.config.expiryTimestamp ∧
    ((SessionKeyManager.checkLimits sessionShortExpiry 5 200).allowed = false ∧
      reasonContains (SessionKeyManager.checkLimits sessionShortExpiry 5 200)
        "expired" ∧
      (SessionKeyManager.checkLimits sessionShortExpiry 5 200).remainingDailyLimitUSD
        = 0) :=
  ⟨by norm_num [sessionShortExpiry],
   (isSessionValid_amended sessionShortExpiry 5 200).2
     (by norm_num [sessionShortExpiry])⟩

theorem validateConfig_some_code (config : SessionKeyConfig) (now : ℤ)
    (e : AgentPaymentError)
    (h : SessionKeyManager.validateConfig config now = some e) :
    e.code = AgentPaymentErrorCode.SESSION_INVALID := by
  simp only [SessionKeyManager.validateConfig] at h
  split_ifs at h <;>
    first
      | exact Option.noConfusion h
      | (rw [← Option.some.inj h])

theorem validateConfig_none_iff (config : SessionKeyConfig) (now : ℤ) :
    SessionKeyManager.validateConfig config now = none
      ↔ ¬ invalidPolicy config now := by
  simp only [SessionKeyManager.validateConfig, invalidPolicy]
  split_ifs with h1 h2 h3 h4 h5 h6 <;>
    simp_all [List.isEmpty_iff]

theorem getSession_save_self (store : SessionStore) (s : StoredSession) :
    SessionStorage.getSession (SessionStorage.saveSession store s) s.keyHash
      = some s := by
  simp [SessionStorage.getSession, SessionStorage.saveSession, List.find?_cons]

theorem find_filter_ne (store : SessionStore) (kh k : String) (hne : k ≠ kh) :
    (store.filter (fun p => p.1 != kh)).find? (fun p => p.1 == k)
      = store.find? (fun p => p.1 == k) := by
  induction store with
  | nil => rfl
  | cons p rest ih =>
    by_cases hp : p.1 = kh
    · have hfilter : (p.1 != kh) = false := by simp [hp]
      have hpk : (p.1 == k) = false := by
        simp only [beq_eq_false_iff_ne, ne_eq, hp]
        exact fun hh => hne hh.symm
      simp [List.filter_cons, hfilter, List.find?_cons, hpk, ih]
    · have hfilter : (p.1 != kh) = true := by simp [hp]
      by_cases hpk : p.1 = k
      · simp [List.filter_cons, hfilter, List.find?_cons, hpk, hne]
      · have hpk2 : (p.1 == k) = false := by simp [hpk]
        simp [List.filter_cons, hfilter, List.find?_cons, hpk2, ih]

theorem getSession_save_other (store : SessionStore) (s : StoredSession)
    (k : String) (hne : k ≠ s.keyHash) :
    SessionStorage.getSession (SessionStorage.saveSession store s) k
      = SessionStorage.getSession store k := by
  have hk : (s.keyHash == k) = false := by
    simp only [beq_eq_false_iff_ne, ne_eq]
    exact fun hh => hne hh.symm
  simp [SessionStorage.getSession, SessionStorage.saveSession, List.find?_cons, hk,
    find_filter_ne store s.keyHash k hne]

theorem filter_eq_of_find_none (store : SessionStore) (kh : String)
    (h : store.find? (fun p => p.1 == kh) = none) :
    store.filter (fun p => p.1 != kh) = store := by
  induction store with
  | nil => rfl
  | cons p rest ih =>
    rw [List.find?_cons] at h
    by_cases hp : (p.1 == kh) = true
    · simp [hp] at h
    · have hp2 : (p.1 == kh) = false := by
        simpa using hp
      have hb : (p.1 != kh) = true := by
        simp [bne, hp2]
      have hrest : rest.find? (fun p => p.1 == kh) = none := by
        simpa [hp2] using h
      simp [List.filter_cons, hb, ih hrest]

/-- C7: every policy violating Invariant 1 in one of the six checked ways
makes `createSession` fail with a `SESSION_INVALID` (invalid-policy) error
and leaves the store untouched; every policy passing validation persists
exactly one new session: it is retrievable under its key hash, all other
keys are unaffected, and a fresh key hash grows the store by one entry. -/
theorem createSession_policy_validation (store : SessionStore)
    (masterKeyHash : String) (config : SessionKeyConfig)
    (keyHash publicKey encryptedPrivateKey : String) (now : ℤ) :
    (invalidPolicy config now →
      ∃ e, SessionKeyManager.createSession store masterKeyHash config keyHash
          publicKey encryptedPrivateKey now = (Except.error e, store) ∧
        e.code = AgentPaymentErrorCode.SESSION_INVALID) ∧
    (¬ invalidPolicy config now →
      ∃ session, SessionKeyManager.createSession store masterKeyHash config keyHash
          publicKey encryptedPrivateKey now
          = (Except.ok session, SessionStorage.saveSession store session) ∧
        session.keyHash = keyHash ∧ session.config = config ∧
        SessionStorage.getSession (SessionStorage.saveSession store session) keyHash
          = some session ∧
        (∀ k, k ≠ keyHash →
          SessionStorage.getSession (SessionStorage.saveSession store session) k
            = SessionStorage.getSession store k) ∧
        (SessionStorage.getSession store keyHash = none →
          (SessionStorage.saveSession store session).length = store.length + 1)) := by
  constructor
  · intro hbad
    have hsome : SessionKeyManager.validateConfig config now ≠ none := fun hc =>
      ((validateConfig_none_iff config now).mp hc) hbad
    obtain ⟨e, he⟩ := Option.ne_none_iff_exists.mp hsome
    refine ⟨e, ?_, validateConfig_some_code config now e he.symm⟩
    simp [SessionKeyManager.createSession, ← he]
  · intro hgood
    have hnone : SessionKeyManager.validateConfig config now = none :=
      (validateConfig_none_iff config now).mpr hgood
    refine ⟨{
        keyHash := keyHash
        encryptedPrivateKey := encryptedPrivateKey
        publicKey := publicKey
        config := config
        metadata := {
          createdAt := now
          lastUsedAt := now
          totalSpentUSD := 0
          dailySpentUSD := 0
          dailyResetAt := now + msPerDay
          transactionCount := 0 }
        masterKeyHash := masterKeyHash }, ?_, rfl, rfl, ?_, ?_, ?_⟩
    · simp [SessionKeyManager.createSession, hnone]
    · exact getSession_save_self store _
    · intro k hk
      exact getSession_save_other store _ k hk
    · intro hfresh
      have hfind : store.find? (fun p => p.1 == keyHash) = none := by
        simp only [SessionStorage.getSession, Option.map_eq_none'] at hfresh
        exact hfresh
      simp [SessionStorage.saveSession, filter_eq_of_find_none store keyHash hfind]

theorem createSession_policy_validation_witness :
    (invalidPolicy
        { dailyLimitUSD := 0, perTransactionLimitUSD := 5,
          expiryTimestamp := 100, allowedChains := [30] } 0 ∧
      ∃ e, SessionKeyManager.createSession [] "m1"
          { dailyLimitUSD := 0, perTransactionLimitUSD := 5,
            expiryTimestamp := 100, allowedChains := [30] }
          "kA" "pA" "cA" 0 = (Except.error e, []) ∧
        e.code = AgentPaymentErrorCode.SESSION_INVALID) ∧
    (¬ invalidPolicy testConfig 0 ∧
      ∃ session, SessionKeyManager.createSession [] "m1" testConfig
          "kB" "pB" "cB" 0
          = (Except.ok session, SessionStorage.saveSession [] session) ∧
        session.keyHash = "kB" ∧ session.config = testConfig ∧
        SessionStorage.getSession (SessionStorage.saveSession [] session) "kB"
          = some session ∧
        (∀ k, k ≠ "kB" →
          SessionStorage.getSession (SessionStorage.saveSession [] session) k
            = SessionStorage.getSession ([] : SessionStore) k) ∧
        (SessionStorage.getSession ([] : SessionStore) "kB" = none →
          (SessionStorage.saveSession [] session).length
            = ([] : SessionStore).length + 1)) := by
  have hbad : invalidPolicy
      { dailyLimitUSD := 0, perTransactionLimitUSD := 5,
        expiryTimestamp := 100, allowedChains := [30] } 0 := by
    left
    norm_num
  have hgood : ¬ invalidPolicy testConfig 0 := by
    simp only [invalidPolicy, testConfig, msPerDay]
    push_neg
    refine ⟨by norm_num, by norm_num, by norm_num, by norm_num, by norm_num, by simp⟩
  exact ⟨⟨hbad, (createSession_policy_validation [] "m1" _ "kA" "pA" "cA" 0).1 hbad⟩,
    ⟨hgood, (createSession_policy_validation [] "m1" testConfig "kB" "pB" "cB" 0).2
      hgood⟩⟩

/-- C3 counterexample: `revokeSession` deletes the session from the store but
never reaches the token vault.  A token minted for `testSession` before the
revocation (entered into the tokenizer cache at t=0, valid until t=900000)
still validates at t=100 even though the session has been removed from the
store, contradicting "every token previously minted for s subsequently fails
validate". -/
theorem revokeSession_no_cascade_counterexample :
    SessionKeyManager.revokeSession [("k1", testSession)] testSession.keyHash
      = [] ∧
    (PaymentTokenizer.validate
        (PaymentTokenizer.tokenize [] testSession "tok0" 0 none).2
        (fun _ => none) "tok0" 100).1.valid = true := by
  constructor
  · norm_num [SessionKeyManager.revokeSession, SessionStorage.removeSession,
      testSession]
  · norm_num [PaymentTokenizer.validate, PaymentTokenizer.tokenize,
      PaymentTokenizer.TOKEN_TTL_MS, testSession, testConfig, List.find?_cons]

/-- C3 amended: `revokeSession` deletes the session from the store and does
only that — the session is no longer retrievable, other keys are untouched —
and the revocation does NOT cascade to the token vault: tokens minted for the
session are invalidated only by an explicit
`PaymentTokenizer.revokeAllForSession`, after which every token that still
validates belongs to a session with a different key hash. -/
theorem revokeSession_amended (store : SessionStore) (kh : String)
    (cache : TokenCache) (decode : String → Option DecodedToken)
    (token : String) (now : ℤ) :
    SessionStorage.getSession (SessionKeyManager.revokeSession store kh) kh
      = none ∧
    (∀ k, k ≠ kh →
      SessionStorage.getSession (SessionKeyManager.revokeSession store kh) k
        = SessionStorage.getSession store k) ∧
    ((PaymentTokenizer.validate (PaymentTokenizer.revokeAllForSession cache kh).2
        decode token now).1.valid = true →
      ∃ s, (PaymentTokenizer.validate
          (PaymentTokenizer.revokeAllForSession cache kh).2
          decode token now).1.session = some s ∧ s.keyHash ≠ kh) := by
  refine ⟨?_, ?_, ?_⟩
  · simp only [SessionKeyManager.revokeSession, SessionStorage.removeSession,
      SessionStorage.getSession, Option.map_eq_none']
    rw [List.find?_eq_none]
    intro x hx
    have hne := (List.mem_filter.mp hx).2
    simp only [bne_iff_ne, ne_eq] at hne
    simp [hne]
  · intro k hk
    simp only [SessionKeyManager.revokeSession, SessionStorage.removeSession,
      SessionStorage.getSession]
    rw [find_filter_ne store kh k hk]
  · intro hvalid
    rcases hfind : ((PaymentTokenizer.revokeAllForSession cache kh).2.find?
        (fun p => p.1 == token)) with _ | p
    · rcases hdec : decode token with _ | d
      · simp [PaymentTokenizer.validate, hfind, hdec] at hvalid
      · simp only [PaymentTokenizer.validate, hfind, Option.map_none',
          hdec] at hvalid
        split_ifs at hvalid
    · have hmem := List.mem_of_find?_eq_some hfind
      simp only [PaymentTokenizer.revokeAllForSession] at hmem
      have hkey : p.2.session.keyHash ≠ kh := by
        have := (List.mem_filter.mp hmem).2
        simpa [bne_iff_ne] using this
      simp only [PaymentTokenizer.validate, hfind, Option.map_some'] at hvalid ⊢
      by_cases hc1 : p.2.expiresAt < now
      · simp [hc1] at hvalid
      · by_cases hc2 : p.2.session.config.expiryTimestamp < now
        · simp [hc1, hc2] at hvalid
        · simp only [if_neg hc1, if_neg hc2] at hvalid ⊢
          exact ⟨p.2.session, rfl, hkey⟩

theorem revokeSession_amended_witness :
    SessionStorage.getSession
        (SessionKeyManager.revokeSession [("k1", testSession)] "k1") "k1"
      = none ∧
    (∀ k, k ≠ "k1" →
      SessionStorage.getSession
          (SessionKeyManager.revokeSession [("k1", testSession)] "k1") k
        = SessionStorage.getSession [("k1", testSession)] k) ∧
    ((PaymentTokenizer.validate
        (PaymentTokenizer.revokeAllForSession
          (PaymentTokenizer.tokenize [] testSession "tok0" 0 none).2 "k1").2
        (fun _ => none) "tok0" 100).1.valid = true →
      ∃ s, (PaymentTokenizer.validate
          (PaymentTokenizer.revokeAllForSession
            (PaymentTokenizer.tokenize [] testSession "tok0" 0 none).2 "k1").2
          (fun _ => none) "tok0" 100).1.session = some s ∧ s.keyHash ≠ "k1") :=
  revokeSession_amended [("k1", testSession)] "k1"
    (PaymentTokenizer.tokenize [] testSession "tok0" 0 none).2
    (fun _ => none) "tok0" 100

theorem recordSpending_spent (store : SessionStore) (session : StoredSession)
    (amt : ℚ) (now : ℤ) :
    (SessionKeyManager.recordSpending store session amt now).1.metadata.dailySpentUSD
      = (if now > session.metadata.dailyResetAt then 0
          else session.metadata.dailySpentUSD) + amt := by
  by_cases h : now > session.metadata.dailyResetAt <;>
    simp [SessionKeyManager.recordSpending, SpendingTracker.recordSpending, h]

/-- C6 counterexample: for the scenario-4 challenge (`maxAmountRequired =
"1000000"` in 6-decimal USDC) the flow's USD estimate is $1,000,000 — not
`1000000 / 10^6 = $1.00` — because the `amount > 1_000_000` test is strict
and sub-threshold stablecoin amounts are never divided by `10^decimals`;
moreover a known stablecoin address is not recognized by the symbol-substring
test, so the "known stablecoin address" part of the claim has no counterpart
in the code. -/
theorem estimateUSDValue_counterexample :
    X402Client.estimateUSDValue testRequest = some 1000000 ∧
    ((1000000 : ℚ) / 10 ^ 6 = 1) ∧
    X402Client.estimateUSDValue testRequest ≠ some ((1000000 : ℚ) / 10 ^ 6) ∧
    X402Client.stablecoinSymbols.any (fun s =>
      strIncludes (strToUpper "0x833589fCD6eDb6E08f4c7C32D4f71b54bdA02913") s)
      = false := by
  have hparse : parseFloatQ "1000000" = some 1000000 := rfl
  have hstable : X402Client.stablecoinSymbols.any
      (fun s => strIncludes (strToUpper "USDC") s) = true := by decide
  have h1 : X402Client.estimateUSDValue testRequest = some 1000000 := by
    simp only [X402Client.estimateUSDValue, testRequest, hparse, Option.map_some']
    norm_num [X402Client.estimateUSDValueFrom, hstable]
  have hdiv : ((1000000 : ℚ) / 10 ^ 6 = 1) := by norm_num
  refine ⟨h1, hdiv, ?_, by decide⟩
  rw [h1, hdiv]
  simp only [ne_eq, Option.some.injEq]
  norm_num

/-- C6 amended: the USD estimate ignores decimals and the stablecoin check
entirely determines nothing: for every token string (stablecoin symbol or
not) the estimate is `amount / 10^6` when the parsed amount exceeds `10^6`
strictly and the raw amount otherwise — so `"1000000"` is read as
$1,000,000 — and the 402 flow uses this one value both for the limit check
and for the ledger record. -/
theorem estimateUSDValue_amended (a : ℚ) (token : String) (store : SessionStore)
    (session : StoredSession) (now : ℤ) :
    X402Client.estimateUSDValueFrom a token
      = (if a > 1000000 then a / 1000000 else a) ∧
    (∀ s2 st2 used,
      X402Client.handleX402FlowCore store session a token now
        = Except.ok (s2, st2, used) →
      used = X402Client.estimateUSDValueFrom a token ∧
      s2.metadata.dailySpentUSD
        = (if now > session.metadata.dailyResetAt then 0
            else session.metadata.dailySpentUSD) + used) := by
  constructor
  · simp only [X402Client.estimateUSDValueFrom]
    split_ifs <;> rfl
  · intro s2 st2 used hok
    simp only [X402Client.handleX402FlowCore] at hok
    by_cases hall : (SessionKeyManager.checkLimits session
        (X402Client.estimateUSDValueFrom a token) now).allowed = true
    · rw [if_pos hall] at hok
      simp only [Except.ok.injEq, Prod.mk.injEq] at hok
      obtain ⟨hs, _, hu⟩ := hok
      refine ⟨hu.symm, ?_⟩
      rw [← hs, hu]
      exact recordSpending_spent store session used now
    · rw [if_neg hall] at hok
      simp at hok

theorem estimateUSDValue_amended_witness :
    X402Client.estimateUSDValueFrom 1000000 "USDC"
      = (if (1000000 : ℚ) > 1000000 then (1000000 : ℚ) / 1000000 else 1000000) ∧
    (∀ s2 st2 used,
      X402Client.handleX402FlowCore [] testSession 1000000 "USDC" 0
        = Except.ok (s2, st2, used) →
      used = X402Client.estimateUSDValueFrom 1000000 "USDC" ∧
      s2.metadata.dailySpentUSD
        = (if (0 : ℤ) > testSession.metadata.dailyResetAt then 0
            else testSession.metadata.dailySpentUSD) + used) :=
  estimateUSDValue_amended 1000000 "USDC" [] testSession 0

theorem splitAtDot_no_dot (l : List Char) (h : listHasChar l '.' = false) :
    splitAtDot l = (l, none) := by
  induction l with
  | nil => rfl
  | cons c rest ih =>
    simp only [listHasChar, Bool.or_eq_false_iff] at h
    simp only [splitAtDot, h.1, Bool.false_eq_true, if_false, ih h.2]

theorem parseUnits_of_no_dot (s : String) (decimals : ℕ) (n : ℤ)
    (hdot : listHasChar s.data '.' = false)
    (hbig : parseBigInt s = some n) :
    parseUnits s decimals = some (n * 10 ^ decimals) := by
  simp only [parseBigInt] at hbig
  by_cases hcond : (s.data.isEmpty || !listAllDigits s.data) = true
  · simp [hcond] at hbig
  · rw [if_neg (by simp [hcond])] at hbig
    have hn := Option.some.inj hbig
    have h2 : (!s.data.isEmpty && listAllDigits s.data) = true := by
      simp only [Bool.or_eq_true, Bool.not_eq_true', not_or,
        Bool.not_eq_true] at hcond
      simp [hcond.1, hcond.2]
    simp only [parseUnits, splitAtDot_no_dot s.data hdot]
    rw [if_pos h2, ← hn]

/-- C9: the signer's amount interpretation: a string containing a dot is
parsed as a decimal number of whole tokens and scaled by `10^decimals`; an
integer string below `10^9` is treated as whole tokens and scaled by
`10^decimals`; an integer string at or above `10^9` is taken verbatim as the
token's smallest unit. -/
theorem paymentSigner_amount_interpretation (amount : String) (decimals : ℕ)
    (n : ℤ) :
    (listHasChar amount.data '.' = true →
      PaymentSigner.interpretAmount amount decimals = parseUnits amount decimals) ∧
    (listHasChar amount.data '.' = false → parseBigInt amount = some n →
      n < 10 ^ 9 →
      PaymentSigner.interpretAmount amount decimals
        = some (n * 10 ^ decimals)) ∧
    (listHasChar amount.data '.' = false → parseBigInt amount = some n →
      ¬ n < 10 ^ 9 →
      PaymentSigner.interpretAmount amount decimals = some n) := by
  refine ⟨?_, ?_, ?_⟩
  · intro h
    simp [PaymentSigner.interpretAmount, h]
  · intro hdot hbig hlt
    rw [PaymentSigner.interpretAmount, if_neg (by simp [hdot])]
    rw [hbig]
    simp only [hlt, if_true]
    exact parseUnits_of_no_dot amount decimals n hdot hbig
  · intro hdot hbig hlt
    rw [PaymentSigner.interpretAmount, if_neg (by simp [hdot])]
    rw [hbig]
    simp only [hlt, if_false]

theorem paymentSigner_amount_interpretation_witness :
    listHasChar "1000000".data '.' = false ∧
    parseBigInt "1000000" = some 1000000 ∧
    (1000000 : ℤ) < 10 ^ 9 ∧
    PaymentSigner.interpretAmount "1000000" 6 = some (1000000 * 10 ^ 6) :=
  ⟨by decide, by decide, by decide,
   (paymentSigner_amount_interpretation "1000000" 6 1000000).2.1
     (by decide) (by decide) (by decide)⟩

/-- C8: assuming the external `ethers` primitives are a correct recoverable
signature scheme (recovering from a signature made with a key yields that
key's address), verifying a signature produced by `sign` against the session
wallet's address, the mapped EVM chain id and the resolved token address
succeeds; verifying it against any expected signer whose lowercased form
differs fails; and `verifySignature` returns `false` instead of raising
whenever signer recovery fails. -/
theorem paymentSigner_sign_verify_roundtrip (M : EcdsaModel)
    (request : Payment402Request) (session : StoredSession) (nonce : String)
    (now : ℤ)
    (hM : ∀ d m k, M.verifyTypedData d m (M.signTypedData d m k)
      = some (M.addressOf k)) :
    signVerifyOutcome M request session nonce now := by
  constructor
  · intro resp hresp
    simp only [PaymentSigner.sign] at hresp
    rcases hamt : PaymentSigner.interpretAmount request.amount
        (PaymentSigner.getTokenDecimals request.token) with _ | v
    · rw [hamt] at hresp
      exact Option.noConfusion hresp
    · rw [hamt] at hresp
      have hresp2 := Option.some.inj hresp
      subst hresp2
      constructor
      · simp only [PaymentSigner.verifySignature, PaymentSigner.verifyDomain]
        rw [hM]
        simp
      · intro other hother
        simp only [PaymentSigner.verifySignature, PaymentSigner.verifyDomain]
        rw [hM]
        simp only [beq_eq_false_iff_ne, ne_eq]
        exact fun hc => hother hc.symm
  · intro signature authorization expectedSigner chainId tokenAddress hnone
    simp [PaymentSigner.verifySignature, hnone]

theorem paymentSigner_sign_verify_roundtrip_witness :
    signVerifyOutcome trivialEcdsa testRequest testSession "n1" 0 :=
  paymentSigner_sign_verify_roundtrip trivialEcdsa testRequest testSession "n1" 0
    (fun _ _ _ => rfl)

end AgenticPayments
